import Mathlib

/-!
Verification of the ai-search-backend ingestion and query pipeline.

Shallow embedding of `src/lambdas/document_ingestion/index.py` and
`src/lambdas/ai_search/index.py`.  External collaborators (S3, Textract,
pandoc, OpenSearch, Bedrock) are modelled as response functions bundled in
a `World` record; each embedded function additionally returns the list of
external calls it performed, which is the explicit-state rendering of the
Python code's side effects.  Strings are modelled at the code-point level;
`urllib.parse.unquote_plus` is modelled byte-for-byte for ASCII data
(each `%XX` decodes to the code point `XX`), which is faithful on the
ASCII inputs all claims are about.
-/

namespace AISearchBackend

/-- Value of one hex digit, as accepted by `urllib.parse.unquote`. -/
def hexDigitVal (c : Char) : Option Nat :=
  if '0' ≤ c ∧ c ≤ '9' then some (c.toNat - '0'.toNat)
  else if 'a' ≤ c ∧ c ≤ 'f' then some (c.toNat - 'a'.toNat + 10)
  else if 'A' ≤ c ∧ c ≤ 'F' then some (c.toNat - 'A'.toNat + 10)
  else none

/-- Percent-decoding: `%XX` with two hex digits becomes the code point `XX`;
malformed escapes pass through unchanged (Python's `unquote` behaviour on
undecodable sequences). -/
def percentDecode : List Char → List Char
  | [] => []
  | '%' :: a :: b :: rest =>
    match hexDigitVal a, hexDigitVal b with
    | some ha, some hb => Char.ofNat (16 * ha + hb) :: percentDecode rest
    | _, _ => '%' :: percentDecode (a :: b :: rest)
  | c :: rest => c :: percentDecode rest

/-- `urllib.parse.unquote_plus`: first replace every `+` by a space, then
percent-decode. -/
def unquote_plus (s : String) : String :=
  String.mk (percentDecode (s.data.map fun c => if c = '+' then ' ' else c))

/-- Python's `str.split(sep)` for a single-character separator (the source
only splits on "." and "/").  The result is never empty:
`"".split(sep) == [""]`. -/
def splitChar (sep : Char) : List Char → List (List Char)
  | [] => [[]]
  | c :: rest =>
    match splitChar sep rest with
    | [] => [[]]
    | g :: gs => if c = sep then [] :: g :: gs else (c :: g) :: gs

/-- Python's `s.split(sep)[-1]`: the split list is never empty, so the
default is unreachable. -/
def lastSegment (sep : Char) (s : String) : String :=
  String.mk ((splitChar sep s.data).getLastD [])

/-- Python's `str.lower()` on ASCII data. -/
def lowerStr (s : String) : String :=
  String.mk (s.data.map Char.toLower)

/-- One Textract block of a `get_document_analysis` response. -/
structure TextractBlock where
  blockType : String
  text : String
deriving Repr, DecidableEq

/-- One page of Textract results: its blocks and the `NextToken` field
(absent on the final page). -/
structure TextractPage where
  blocks : List TextractBlock
  nextToken : Option String
deriving Repr, DecidableEq

/-- Terminal outcome of a Textract analysis job, as delivered by the final
poll: `SUCCEEDED` with the sequence of result pages the pagination loop
will receive, or `FAILED` with the optional `StatusMessage`. -/
inductive TextractJob where
  | succeeded (pages : List TextractPage)
  | failed (statusMessage : Option String)
deriving Repr, DecidableEq

/-- Result of `subprocess.run(['pandoc', ...])`. -/
structure PandocResult where
  returncode : Int
  stdout : String
  stderr : String
deriving Repr, DecidableEq

/-- The document dict indexed into OpenSearch (ingestion lambda). -/
structure Document where
  content : String
  title : String
  document_id : String
  file_type : String
  upload_date : String
  last_modified : String
deriving Repr, DecidableEq

/-- External call performed by the ingestion pipeline, in program order. -/
inductive Call where
  | getObject (bucket key : String)
  | headObject (bucket key : String)
  | runPandoc (input : String)
  | startAnalysis (bucket key : String)
  | indexPut (id : String) (doc : Document)
deriving Repr, DecidableEq

/-- Responses of the external collaborators of the ingestion lambda.
`Except.error e` models a raised exception whose `str` is `e`;
`s3Head` returns the ISO last-modified timestamp or `none` when the
head request raises; `indexResult key = some e` means the OpenSearch
`index` call for that document id raises `e`; `now` is the (constant
within one invocation) value of `datetime.utcnow().isoformat()`. -/
structure World where
  s3Object : String → String → Except String String
  s3Head : String → String → Option String
  pandoc : String → PandocResult
  startAnalysis : String → String → Except String String
  job : String → TextractJob
  indexResult : String → Option String
  now : String

/-- `extract_text_from_docx`: download the object, run pandoc; `some stdout`
on a clean exit, `none` on a nonzero exit or any exception (both are caught
and logged, never raised). -/
def extract_text_from_docx (w : World) (bucket original_key : String) :
    Option String × List Call :=
  match w.s3Object bucket original_key with
  | .error _ => (none, [Call.getObject bucket original_key])
  | .ok body =>
    let r := w.pandoc body
    (if r.returncode = 0 then some r.stdout else none,
     [Call.getObject bucket original_key, Call.runPandoc body])

/-- The LINE-block texts of one response, in block order
(`for block in response['Blocks']: if block['BlockType'] == 'LINE'`). -/
def lineTexts (blocks : List TextractBlock) : List String :=
  (blocks.filter fun b => b.blockType = "LINE").map (·.text)

/-- The pagination loop over Textract result pages: collect each page's
LINE texts, continue while a `NextToken` is present, stop when absent. -/
def gatherBlocks : List TextractPage → List String
  | [] => []
  | p :: rest =>
    match p.nextToken with
    | some _ => lineTexts p.blocks ++ gatherBlocks rest
    | none => lineTexts p.blocks

/-- The Textract branch of `extract_text_from_file`: start the analysis job
(an exception propagates to the enclosing handler, which returns `str(e)`),
then — the poll loop having terminated, see `pollJob` for the loop itself —
either join all paginated LINE texts with newlines, or return the error
string built from the reported `StatusMessage`. -/
def runTextract (w : World) (bucket original_key : String) : String × List Call :=
  match w.startAnalysis bucket original_key with
  | .error e => (e, [Call.startAnalysis bucket original_key])
  | .ok jobId =>
    match w.job jobId with
    | .succeeded pages =>
      (String.intercalate "\n" (gatherBlocks pages),
       [Call.startAnalysis bucket original_key])
    | .failed sm =>
      ("Error processing document: " ++ sm.getD "Unknown error",
       [Call.startAnalysis bucket original_key])

/-- `extract_text_from_file`: classify by the lowercased last `.`-segment of
the plus-and-percent-decoded key, then dispatch.  All storage calls use the
original (raw) key.  Every exception is caught by the function's own
handler, which returns `str(e)`; hence the return type is a plain string. -/
def extract_text_from_file (w : World) (bucket key : String) : String × List Call :=
  let original_key := key
  let decoded_key := unquote_plus key
  let file_ext := lowerStr (lastSegment '.' decoded_key)
  if file_ext = "txt" ∨ file_ext = "json" ∨ file_ext = "md" then
    match w.s3Object bucket original_key with
    | .ok body => (body, [Call.getObject bucket original_key])
    | .error e => (e, [Call.getObject bucket original_key])
  else if file_ext = "docx" ∨ file_ext = "doc" then
    match extract_text_from_docx w bucket original_key with
    | (some content, tr) =>
      if content = "" then
        let t := runTextract w bucket original_key
        (t.1, tr ++ t.2)
      else (content, tr)
    | (none, tr) =>
      let t := runTextract w bucket original_key
      (t.1, tr ++ t.2)
  else if file_ext = "pdf" ∨ file_ext = "png" ∨ file_ext = "jpg" ∨ file_ext = "jpeg" then
    runTextract w bucket original_key
  else
    ("Unsupported file type: " ++ file_ext, [])

/-- One record of the triggering S3 event. -/
structure S3Record where
  bucket : String
  key : String
deriving Repr, DecidableEq

/-- The document dict built by `lambda_handler` before indexing: content as
extracted, title and file type from the decoded key, id the raw key. -/
def buildDocument (key content last_modified now : String) : Document :=
  let decoded_key := unquote_plus key
  { content := content
    title := lastSegment '/' decoded_key
    document_id := key
    file_type := lowerStr (lastSegment '.' decoded_key)
    upload_date := now
    last_modified := last_modified }

/-- The record loop of `lambda_handler`.  Returns the uncaught exception, if
any (the loop stops there: the `raise e` after a failed index call is only
caught by the handler's outer `try`), the list of successful index puts in
order, and the external-call trace.  The head request is best-effort: on
failure `last_modified` falls back to `now`. -/
def processRecords (w : World) :
    List S3Record → Option String × List (String × Document) × List Call
  | [] => (none, [], [])
  | r :: rest =>
    let e := extract_text_from_file w r.bucket r.key
    if e.1 = "" then
      let p := processRecords w rest
      (p.1, p.2.1, e.2 ++ p.2.2)
    else
      let last_modified := (w.s3Head r.bucket r.key).getD w.now
      let doc := buildDocument r.key e.1 last_modified w.now
      match w.indexResult r.key with
      | some err =>
        (some err, [], e.2 ++ [Call.headObject r.bucket r.key, Call.indexPut r.key doc])
      | none =>
        let p := processRecords w rest
        (p.1, (r.key, doc) :: p.2.1,
         e.2 ++ [Call.headObject r.bucket r.key, Call.indexPut r.key doc] ++ p.2.2)

/-- HTTP-style result of a lambda handler. -/
structure LambdaResult where
  statusCode : Nat
  body : String
deriving Repr, DecidableEq

/-- `lambda_handler` of the ingestion lambda: iterate the records; an
uncaught exception reaches the outer `try` and yields a 500 response,
otherwise a 200 response. -/
def lambda_handler (w : World) (records : List S3Record) :
    LambdaResult × List (String × Document) × List Call :=
  match processRecords w records with
  | (none, puts, tr) =>
    ({ statusCode := 200, body := "Document processing complete" }, puts, tr)
  | (some e, puts, tr) =>
    ({ statusCode := 500, body := "Error processing document: " ++ e }, puts, tr)

/-- The status-poll loop of the Textract branch (`while True: ... sleep(3)`),
embedded with explicit fuel since the source loop is unbounded.  `statusAt i`
is the `JobStatus` of the i-th poll; the result is the terminal status
together with the list of sleeps performed (one `3` after every non-terminal
poll); `none` means the fuel ran out before a terminal status. -/
def pollJob (statusAt : Nat → String) (i : Nat) (fuel : Nat) (sleeps : List Nat) :
    Option (String × List Nat) :=
  match fuel with
  | 0 => none
  | fuel + 1 =>
    if statusAt i = "SUCCEEDED" ∨ statusAt i = "FAILED" then
      some (statusAt i, sleeps)
    else
      pollJob statusAt (i + 1) fuel (sleeps ++ [3])

/-- The key, if any, that a call hands to the storage layer (S3 or the
Textract job submission). -/
def storageKeyOf : Call → Option String
  | Call.getObject _ k => some k
  | Call.headObject _ k => some k
  | Call.startAnalysis _ k => some k
  | Call.runPandoc _ => none
  | Call.indexPut _ _ => none

/-! Embedding of `src/lambdas/ai_search/index.py` (query path). -/

/-- One item of the Bedrock response body's `content` list; both fields are
read with `.get`, so either may be absent. -/
structure ContentItem where
  type : Option String
  text : Option String
deriving Repr, DecidableEq

/-- The parsed Bedrock response body: `content` is `some items` when the
key is present and is a list. -/
structure BedrockBody where
  content : Option (List ContentItem)
deriving Repr, DecidableEq

/-- The response handling inside the retry loop: return the text of the
first `content` item of type `"text"` (defaulting to `""` when the item
has no `text`), else the parse-error string. -/
def parseModelResponse (b : BedrockBody) : String :=
  match b.content with
  | some items =>
    match items.find? (fun it => it.type == some "text") with
    | some it => it.text.getD ""
    | none => "Error: Unable to parse model response."
  | none => "Error: Unable to parse model response."

/-- One source document returned by the OpenSearch query; `title` and
`content` are read from `_source` with `.get` and a default. -/
structure RetrievedDoc where
  title : Option String
  content : Option String
deriving Repr, DecidableEq

/-- External call performed by `generate_response`. -/
inductive BedrockCall where
  | invokeModel (attempt : Nat)
  | sleep (seconds : Nat)
deriving Repr, DecidableEq

/-- The Bedrock collaborator: `invoke payload attempt` is the outcome of
the `invoke_model` call at the given attempt — a parsed body, or
`Except.error e` for a raised `ClientError`/`Boto3Error` (the exception
types the loop catches). -/
structure BedrockWorld where
  invoke : String → Nat → Except String BedrockBody

/-- The `for attempt in range(max_retries)` loop of `generate_response`,
with the remaining iteration count made structural (`remaining` starts at
`max_retries` with `attempt` at 0, so `attempt + remaining = max_retries`
throughout): on success parse and return; on a caught error return the
Bedrock error string if this was the last attempt, else sleep
`2 ** attempt` and retry.  Falling out of the loop (only possible when
`max_retries = 0`) yields the no-valid-response string. -/
def retryLoop (w : BedrockWorld) (payload : String) (max_retries : Nat) :
    Nat → Nat → String × List BedrockCall
  | 0, _ => ("Error: No valid response from Bedrock AI.", [])
  | remaining + 1, attempt =>
    match w.invoke payload attempt with
    | .ok body => (parseModelResponse body, [BedrockCall.invokeModel attempt])
    | .error _ =>
      if attempt = max_retries - 1 then
        ("Error generating response from Bedrock.", [BedrockCall.invokeModel attempt])
      else
        let r := retryLoop w payload max_retries remaining (attempt + 1)
        (r.1, BedrockCall.invokeModel attempt :: BedrockCall.sleep (2 ^ attempt) :: r.2)

/-- The context string joined from the retrieved documents. -/
def buildContext (docs : List RetrievedDoc) : String :=
  String.intercalate "\n" (docs.map fun d =>
    "Document: " ++ d.title.getD "Unknown" ++ "\nContent: " ++
      d.content.getD "No content available")

/-- `generate_response`: short-circuit on no retrieved documents, else build
the prompt and run the bounded retry loop.  The Python default
`max_retries=3` is passed explicitly. -/
def generate_response (w : BedrockWorld) (query : String)
    (retrieved_docs : List RetrievedDoc) (max_retries : Nat) :
    String × List BedrockCall :=
  if retrieved_docs = [] then ("No relevant documents found.", [])
  else
    let context := buildContext retrieved_docs
    let prompt := "Context:\n" ++ context ++ "\n\nQuery: " ++ query
    retryLoop w prompt max_retries max_retries 0

/-- Number of `invoke_model` calls in a trace. -/
def invokeCount (tr : List BedrockCall) : Nat :=
  (tr.filter fun c => match c with
    | BedrockCall.invokeModel _ => true
    | _ => false).length

/-! Concrete worlds used by counterexamples and witnesses. -/

/-- World where every S3 read succeeds with fixed text, heads fail, pandoc
succeeds, Textract jobs fail with message "boom", and every index put
succeeds. -/
def wC1 : World where
  s3Object := fun _ _ => .ok "hello"
  s3Head := fun _ _ => none
  pandoc := fun _ => { returncode := 0, stdout := "converted", stderr := "" }
  startAnalysis := fun _ _ => .ok "job-1"
  job := fun _ => .failed (some "boom")
  indexResult := fun _ => none
  now := "2026-01-01T00:00:00"

/-- World where the index put for key "b.txt" raises and everything else
succeeds. -/
def wC2 : World where
  s3Object := fun _ k => .ok ("text of " ++ k)
  s3Head := fun _ _ => some "2025-12-31T00:00:00"
  pandoc := fun _ => { returncode := 0, stdout := "converted", stderr := "" }
  startAnalysis := fun _ _ => .ok "job-1"
  job := fun _ => .succeeded []
  indexResult := fun k => if k = "b.txt" then some "index rejected" else none
  now := "2026-01-01T00:00:00"

/-- World where every collaborator succeeds. -/
def wOk : World where
  s3Object := fun _ _ => .ok "hello"
  s3Head := fun _ _ => some "2025-12-31T00:00:00"
  pandoc := fun _ => { returncode := 0, stdout := "converted", stderr := "" }
  startAnalysis := fun _ _ => .ok "job-1"
  job := fun _ => .succeeded [{ blocks := [{ blockType := "LINE", text := "page" }],
                                nextToken := none }]
  indexResult := fun _ => none
  now := "2026-01-01T00:00:00"

/-- World where pandoc exits nonzero and the Textract job fails, so the
docx fallback chain ends in the Textract error string. -/
def wC5 : World where
  s3Object := fun _ _ => .ok "docxbytes"
  s3Head := fun _ _ => none
  pandoc := fun _ => { returncode := 1, stdout := "", stderr := "pandoc error" }
  startAnalysis := fun _ _ => .ok "job-5"
  job := fun _ => .failed (some "boom")
  indexResult := fun _ => none
  now := "2026-01-01T00:00:00"

/-- World whose Textract job succeeds with two result pages. -/
def wC6 : World where
  s3Object := fun _ _ => .ok "bytes"
  s3Head := fun _ _ => none
  pandoc := fun _ => { returncode := 0, stdout := "", stderr := "" }
  startAnalysis := fun _ _ => .ok "job-6"
  job := fun _ => .succeeded
    [{ blocks := [{ blockType := "LINE", text := "first" },
                  { blockType := "WORD", text := "skip" }],
       nextToken := some "tok1" },
     { blocks := [{ blockType := "LINE", text := "second" }],
       nextToken := none }]
  indexResult := fun _ => none
  now := "2026-01-01T00:00:00"

/-- Head request fails here; everything else succeeds. -/
def wC8 : World where
  s3Object := fun _ _ => .ok "body text"
  s3Head := fun _ _ => none
  pandoc := fun _ => { returncode := 0, stdout := "", stderr := "" }
  startAnalysis := fun _ _ => .ok "job-8"
  job := fun _ => .succeeded []
  indexResult := fun _ => none
  now := "2026-01-01T00:00:00"

/-- Bedrock world where every invocation raises a client error. -/
def wC9 : BedrockWorld where
  invoke := fun _ _ => .error "throttled"

/-! Helper lemmas. -/

theorem runTextract_trace (w : World) (b k : String) :
    (runTextract w b k).2 = [Call.startAnalysis b k] := by
  unfold runTextract
  split
  · rfl
  · split <;> rfl

theorem extract_docx_calls (w : World) (b k : String) :
    ∀ c ∈ (extract_text_from_docx w b k).2,
      storageKeyOf c = none ∨ storageKeyOf c = some k := by
  unfold extract_text_from_docx
  rcases w.s3Object b k with e | body
  · intro c hc
    rcases List.mem_singleton.mp hc with rfl
    exact Or.inr rfl
  · intro c hc
    rcases List.mem_cons.mp hc with rfl | hc
    · exact Or.inr rfl
    · rcases List.mem_singleton.mp hc with rfl
      exact Or.inl rfl

theorem extract_calls_raw (w : World) (b k : String) :
    ∀ c ∈ (extract_text_from_file w b k).2,
      storageKeyOf c = none ∨ storageKeyOf c = some k := by
  intro c hc
  simp only [extract_text_from_file] at hc
  split at hc
  · split at hc <;>
      · rcases List.mem_singleton.mp hc with rfl
        exact Or.inr rfl
  · split at hc
    · have hd := extract_docx_calls w b k c
      rcases hdocx : extract_text_from_docx w b k with ⟨oc, tr⟩
      rw [hdocx] at hc hd
      rcases oc with _ | content
      · dsimp only at hc hd
        rcases List.mem_append.mp hc with hc | hc
        · exact hd hc
        · rw [runTextract_trace] at hc
          rcases List.mem_singleton.mp hc with rfl
          exact Or.inr rfl
      · dsimp only at hc hd
        by_cases hce : content = ""
        · rw [if_pos hce] at hc
          dsimp only at hc
          rcases List.mem_append.mp hc with hc | hc
          · exact hd hc
          · rw [runTextract_trace] at hc
            rcases List.mem_singleton.mp hc with rfl
            exact Or.inr rfl
        · rw [if_neg hce] at hc
          exact hd hc
    · split at hc
      · rw [runTextract_trace] at hc
        rcases List.mem_singleton.mp hc with rfl
        exact Or.inr rfl
      · exact absurd hc (List.not_mem_nil c)

theorem processRecords_single_calls (w : World) (b k : String) :
    ∀ c ∈ (processRecords w [⟨b, k⟩]).2.2,
      storageKeyOf c = none ∨ storageKeyOf c = some k := by
  intro c hc
  simp only [processRecords, List.append_nil] at hc
  split at hc
  · exact extract_calls_raw w b k c hc
  · split at hc <;>
      · rcases List.mem_append.mp hc with hc | hc
        · exact extract_calls_raw w b k c hc
        · rcases List.mem_cons.mp hc with rfl | hc
          · exact Or.inr rfl
          · rcases List.mem_singleton.mp hc with rfl
            exact Or.inl rfl

theorem processRecords_single_puts (w : World) (b k : String) :
    ∀ p ∈ (processRecords w [⟨b, k⟩]).2.1,
      p.1 = k ∧
      p.2 = buildDocument k (extract_text_from_file w b k).1
        ((w.s3Head b k).getD w.now) w.now := by
  intro p hp
  simp only [processRecords] at hp
  split at hp
  · exact absurd hp (List.not_mem_nil p)
  · split at hp
    · exact absurd hp (List.not_mem_nil p)
    · rcases List.mem_singleton.mp hp with rfl
      exact ⟨rfl, rfl⟩

theorem lambda_handler_calls (w : World) (rs : List S3Record) :
    (lambda_handler w rs).2.2 = (processRecords w rs).2.2 := by
  unfold lambda_handler
  rcases h : processRecords w rs with ⟨e, puts, tr⟩
  rcases e <;> rfl

theorem lambda_handler_puts (w : World) (rs : List S3Record) :
    (lambda_handler w rs).2.1 = (processRecords w rs).2.1 := by
  unfold lambda_handler
  rcases h : processRecords w rs with ⟨e, puts, tr⟩
  rcases e <;> rfl

theorem extract_txt_trace (w : World) (b k : String)
    (h : lowerStr (lastSegment '.' (unquote_plus k)) = "txt" ∨
         lowerStr (lastSegment '.' (unquote_plus k)) = "json" ∨
         lowerStr (lastSegment '.' (unquote_plus k)) = "md") :
    (extract_text_from_file w b k).2 = [Call.getObject b k] := by
  simp only [extract_text_from_file]
  rw [if_pos h]
  split <;> rfl

theorem extract_mem_processRecords (w : World) (r : S3Record) (rest : List S3Record)
    (c : Call) (hc : c ∈ (extract_text_from_file w r.bucket r.key).2) :
    c ∈ (processRecords w (r :: rest)).2.2 := by
  simp only [processRecords]
  split
  · exact List.mem_append.mpr (Or.inl hc)
  · split
    · exact List.mem_append.mpr (Or.inl hc)
    · exact List.mem_append.mpr (Or.inl (List.mem_append.mpr (Or.inl hc)))

theorem percentDecode_no_percent (l : List Char) (h : '%' ∉ l) :
    percentDecode l = l := by
  induction l with
  | nil => simp [percentDecode]
  | cons c rest ih =>
    have hc : c ≠ '%' := fun he => h (he ▸ List.mem_cons_self c rest)
    have ht : '%' ∉ rest := fun hm => h (List.mem_cons_of_mem c hm)
    rw [percentDecode.eq_def]
    split
    · rename_i heq
      exact absurd heq (List.cons_ne_nil c rest)
    · rename_i a b rest' heq
      rw [List.cons.injEq] at heq
      exact absurd heq.1 hc
    · rename_i c' rest' heq
      rw [List.cons.injEq] at heq
      obtain ⟨h1, h2⟩ := heq
      subst h1
      subst h2
      rw [ih ht]

theorem gatherBlocks_cons_some (p : TextractPage) (rest : List TextractPage)
    (t : String) (h : p.nextToken = some t) :
    gatherBlocks (p :: rest) = lineTexts p.blocks ++ gatherBlocks rest := by
  simp only [gatherBlocks, h]

theorem gatherBlocks_complete (pages : List TextractPage)
    (h : ∀ p ∈ pages.dropLast, p.nextToken.isSome) :
    gatherBlocks pages = (pages.map fun p => lineTexts p.blocks).flatten := by
  induction pages with
  | nil => rfl
  | cons p rest ih =>
    rcases rest with _ | ⟨q, rest'⟩
    · rcases htok : p.nextToken <;>
        simp [gatherBlocks, htok]
    · have hp : p.nextToken.isSome := by
        refine h p ?_
        rw [List.dropLast_cons₂]
        exact List.mem_cons_self p _
      rcases htok : p.nextToken with _ | t
      · rw [htok] at hp; exact absurd hp (by simp)
      · rw [gatherBlocks_cons_some p (q :: rest') t htok, List.map_cons,
          List.flatten_cons]
        rw [ih]
        intro x hx
        refine h x ?_
        rw [List.dropLast_cons₂]
        exact List.mem_cons_of_mem p hx

theorem pollJob_never_terminal (statusAt : Nat → String)
    (h : ∀ i, ¬(statusAt i = "SUCCEEDED" ∨ statusAt i = "FAILED")) :
    ∀ fuel i sleeps, pollJob statusAt i fuel sleeps = none := by
  intro fuel
  induction fuel with
  | zero => intro i sleeps; rfl
  | succ m ih =>
    intro i sleeps
    simp only [pollJob]
    rw [if_neg (h i)]
    exact ih (i + 1) (sleeps ++ [3])

theorem pollJob_first_terminal (statusAt : Nat → String) (n : Nat)
    (hterm : statusAt n = "SUCCEEDED" ∨ statusAt n = "FAILED")
    (hmin : ∀ i, i < n → ¬(statusAt i = "SUCCEEDED" ∨ statusAt i = "FAILED")) :
    ∀ fuel i sleeps, i ≤ n → n < i + fuel →
      pollJob statusAt i fuel sleeps =
        some (statusAt n, sleeps ++ List.replicate (n - i) 3) := by
  intro fuel
  induction fuel with
  | zero => intro i sleeps h1 h2; omega
  | succ m ih =>
    intro i sleeps h1 h2
    simp only [pollJob]
    by_cases hi : i = n
    · subst hi
      rw [if_pos hterm]
      simp
    · have hlt : i < n := lt_of_le_of_ne h1 hi
      rw [if_neg (hmin i hlt)]
      rw [ih (i + 1) (sleeps ++ [3]) (by omega) (by omega)]
      have : n - i = (n - (i + 1)) + 1 := by omega
      rw [this, List.append_assoc]
      simp [List.replicate_succ]

theorem invokeCount_invoke_cons (a : Nat) (tr : List BedrockCall) :
    invokeCount (BedrockCall.invokeModel a :: tr) = invokeCount tr + 1 := by
  simp [invokeCount, List.filter_cons]

theorem invokeCount_sleep_cons (s : Nat) (tr : List BedrockCall) :
    invokeCount (BedrockCall.sleep s :: tr) = invokeCount tr := by
  simp [invokeCount, List.filter_cons]

theorem retryLoop_invokeCount (w : BedrockWorld) (payload : String)
    (max_retries : Nat) :
    ∀ remaining attempt,
      invokeCount (retryLoop w payload max_retries remaining attempt).2 ≤ remaining := by
  intro remaining
  induction remaining with
  | zero =>
    intro attempt
    simp [retryLoop, invokeCount]
  | succ n ih =>
    intro attempt
    simp only [retryLoop]
    rcases hinv : w.invoke payload attempt with e | body
    · by_cases hl : attempt = max_retries - 1
      · rw [if_pos hl]
        simp [invokeCount, List.filter_cons]
      · rw [if_neg hl]
        dsimp only
        rw [invokeCount_invoke_cons, invokeCount_sleep_cons]
        exact Nat.add_le_add_right (ih (attempt + 1)) 1
    · simp [invokeCount, List.filter_cons]

theorem generate_response_invokeCount (w : BedrockWorld) (query : String)
    (docs : List RetrievedDoc) (m : Nat) :
    invokeCount (generate_response w query docs m).2 ≤ m := by
  simp only [generate_response]
  split
  · simp [invokeCount]
  · exact retryLoop_invokeCount w _ m m 0

/-! Claim theorems. -/

/-- C1: (code bug) the claim — and the spec — say an extraction `Failure`
skips indexing like `Empty`, but every failure branch of
`extract_text_from_file` returns a non-empty error string and the handler
only skips falsy content, so the error strings are committed to the index
as document content.  At the failing batch below, the unsupported-type
record "report.xyz" is committed with content "Unsupported file type: xyz"
and the record "scan.pdf" whose OCR job reached Failed is committed with
content "Error processing document: boom". -/
theorem C1_failure_strings_committed :
    (lambda_handler wC1 [⟨"docs", "report.xyz"⟩, ⟨"docs", "scan.pdf"⟩]).2.1.map
        (fun p => (p.1, p.2.content)) =
      [("report.xyz", "Unsupported file type: xyz"),
       ("scan.pdf", "Error processing document: boom")] := by
  decide

/-- C2: (counterexample) in a batch of three text records where the index
commit of record 2 raises, record 1 is indexed but record 3 is neither
indexed nor attempted (no storage call is made for it) and the handler
returns 500 — refuting the claim that the controller continues with the
remaining records after a per-record index-commit error. -/
theorem C2_counterexample :
    ((lambda_handler wC2
        [⟨"docs", "a.txt"⟩, ⟨"docs", "b.txt"⟩, ⟨"docs", "c.txt"⟩]).2.1.map Prod.fst
      = ["a.txt"]) ∧
    Call.getObject "docs" "c.txt" ∉
      (lambda_handler wC2
        [⟨"docs", "a.txt"⟩, ⟨"docs", "b.txt"⟩, ⟨"docs", "c.txt"⟩]).2.2 ∧
    (lambda_handler wC2
        [⟨"docs", "a.txt"⟩, ⟨"docs", "b.txt"⟩, ⟨"docs", "c.txt"⟩]).1.statusCode = 500 := by
  exact ⟨by decide, by decide, by decide⟩

/-- C2: (amended) an error raised at the record level — in particular a
failed index commit — is not caught at the record boundary: it is re-raised
and only the handler's outer handler catches it, so commits of earlier
records are kept, the remaining records of the batch are not attempted (the
call trace ends at the failing commit), and the batch returns statusCode
500 carrying the error. -/
theorem C2_index_error_aborts_batch (w : World) (r1 r2 : S3Record)
    (rest : List S3Record) (err : String)
    (h1c : (extract_text_from_file w r1.bucket r1.key).1 ≠ "")
    (h1i : w.indexResult r1.key = none)
    (h2c : (extract_text_from_file w r2.bucket r2.key).1 ≠ "")
    (h2i : w.indexResult r2.key = some err) :
    lambda_handler w (r1 :: r2 :: rest) =
      ({ statusCode := 500, body := "Error processing document: " ++ err },
       [(r1.key, buildDocument r1.key (extract_text_from_file w r1.bucket r1.key).1
           ((w.s3Head r1.bucket r1.key).getD w.now) w.now)],
       (extract_text_from_file w r1.bucket r1.key).2 ++
         [Call.headObject r1.bucket r1.key,
          Call.indexPut r1.key
            (buildDocument r1.key (extract_text_from_file w r1.bucket r1.key).1
              ((w.s3Head r1.bucket r1.key).getD w.now) w.now)] ++
         ((extract_text_from_file w r2.bucket r2.key).2 ++
          [Call.headObject r2.bucket r2.key,
           Call.indexPut r2.key
             (buildDocument r2.key (extract_text_from_file w r2.bucket r2.key).1
               ((w.s3Head r2.bucket r2.key).getD w.now) w.now)])) := by
  simp [lambda_handler, processRecords, h1c, h2c, h1i, h2i, List.append_assoc]

/-- C2: witness for the amended claim at a concrete world and batch. -/
theorem C2_amended_witness :
    lambda_handler wC2 [⟨"docs", "a.txt"⟩, ⟨"docs", "b.txt"⟩, ⟨"docs", "c.txt"⟩] =
      ({ statusCode := 500, body := "Error processing document: index rejected" },
       [("a.txt",
         { content := "text of a.txt", title := "a.txt", document_id := "a.txt",
           file_type := "txt", upload_date := "2026-01-01T00:00:00",
           last_modified := "2025-12-31T00:00:00" })],
       [Call.getObject "docs" "a.txt", Call.headObject "docs" "a.txt",
        Call.indexPut "a.txt"
          { content := "text of a.txt", title := "a.txt", document_id := "a.txt",
            file_type := "txt", upload_date := "2026-01-01T00:00:00",
            last_modified := "2025-12-31T00:00:00" },
        Call.getObject "docs" "b.txt", Call.headObject "docs" "b.txt",
        Call.indexPut "b.txt"
          { content := "text of b.txt", title := "b.txt", document_id := "b.txt",
            file_type := "txt", upload_date := "2026-01-01T00:00:00",
            last_modified := "2025-12-31T00:00:00" }]) := by
  exact C2_index_error_aborts_batch wC2 ⟨"docs", "a.txt"⟩ ⟨"docs", "b.txt"⟩
    [⟨"docs", "c.txt"⟩] "index rejected" (by decide) (by decide) (by decide) (by decide)

/-- C3: every storage-layer call made while processing a record uses the
raw key exactly as delivered, the title of every committed document is the
last path segment of the decoded key, and on the key
"folder/my%20file.txt" the object retrieval uses the encoded form while the
decoded title reads "my file.txt". -/
theorem C3_raw_storage_decoded_title (w : World) (bucket key : String) :
    (∀ c ∈ (lambda_handler w [⟨bucket, key⟩]).2.2,
        storageKeyOf c = none ∨ storageKeyOf c = some key) ∧
    (∀ p ∈ (lambda_handler w [⟨bucket, key⟩]).2.1,
        p.2.title = lastSegment '/' (unquote_plus key)) ∧
    Call.getObject bucket "folder/my%20file.txt" ∈
      (lambda_handler w [⟨bucket, "folder/my%20file.txt"⟩]).2.2 ∧
    lastSegment '/' (unquote_plus "folder/my%20file.txt") = "my file.txt" := by
  refine ⟨?_, ?_, ?_, by decide⟩
  · intro c hc
    rw [lambda_handler_calls] at hc
    exact processRecords_single_calls w bucket key c hc
  · intro p hp
    rw [lambda_handler_puts] at hp
    rcases processRecords_single_puts w bucket key p hp with ⟨h1, h2⟩
    rw [h2]
    rfl
  · rw [lambda_handler_calls]
    refine extract_mem_processRecords w ⟨bucket, "folder/my%20file.txt"⟩ [] _ ?_
    rw [extract_txt_trace]
    · exact List.mem_singleton.mpr rfl
    · exact Or.inl (show lowerStr (lastSegment '.'
        (unquote_plus "folder/my%20file.txt")) = "txt" from by decide)

/-- C3: witness at a concrete world, key and storage call. -/
theorem C3_witness :
    (storageKeyOf (Call.getObject "docs" "folder/my%20file.txt") = none ∨
     storageKeyOf (Call.getObject "docs" "folder/my%20file.txt") =
       some "folder/my%20file.txt") ∧
    lastSegment '/' (unquote_plus "folder/my%20file.txt") = "my file.txt" := by
  have h := C3_raw_storage_decoded_title wC8 "docs" "folder/my%20file.txt"
  exact ⟨h.1 _ (by decide), h.2.2.2⟩

/-- C4: (counterexample) the key "txt" has no `.`-suffix, yet the code
classifies it by the whole (dotless) name: it is treated as a plain-text
file, the plain-text strategy runs (an object retrieval happens) and its
content is returned — not an immediate unsupported-file-type failure. -/
theorem C4_counterexample :
    (extract_text_from_file wOk "docs" "txt").1 = "hello" ∧
    (extract_text_from_file wOk "docs" "txt").2 = [Call.getObject "docs" "txt"] ∧
    (extract_text_from_file wOk "docs" "txt").1 ≠ "Unsupported file type: txt" := by
  exact ⟨by decide, by decide, by decide⟩

/-- C4: (amended) the file-type is the lowercased last `.`-separated
segment of the decoded key — which is the whole key when it contains no
dot — and any key whose segment is not one of the nine known extensions
yields the immediate failure string "Unsupported file type: " followed by
the segment, with no strategy invoked (the call trace is empty). -/
theorem C4_unknown_suffix_failure (w : World) (bucket key : String)
    (h : lowerStr (lastSegment '.' (unquote_plus key)) ∉
      (["txt", "json", "md", "docx", "doc", "pdf", "png", "jpg", "jpeg"] :
        List String)) :
    extract_text_from_file w bucket key =
      ("Unsupported file type: " ++ lowerStr (lastSegment '.' (unquote_plus key)),
       []) := by
  simp only [List.mem_cons, List.not_mem_nil, or_false] at h
  push_neg at h
  obtain ⟨h1, h2, h3, h4, h5, h6, h7, h8, h9⟩ := h
  simp only [extract_text_from_file]
  rw [if_neg (by tauto), if_neg (by tauto), if_neg (by tauto)]

/-- C4: witness for the amended claim at a concrete unsupported key. -/
theorem C4_witness :
    extract_text_from_file wOk "docs" "file.xyz" =
      ("Unsupported file type: xyz", []) := by
  exact C4_unknown_suffix_failure wOk "docs" "file.xyz" (by decide)

/-- C5: for a docx/doc record whose conversion strategy yields no content
(`None` from an exception or a nonzero converter exit, or empty output),
extraction equals the Textract (OCR) branch run after the pandoc attempt:
its result is the OCR result and its trace is the pandoc trace followed by
the OCR trace, which contains the job submission for the same bucket and
key. -/
theorem C5_docx_fallback (w : World) (bucket key : String)
    (hext : lowerStr (lastSegment '.' (unquote_plus key)) = "docx" ∨
            lowerStr (lastSegment '.' (unquote_plus key)) = "doc")
    (hfb : (extract_text_from_docx w bucket key).1 = none ∨
           (extract_text_from_docx w bucket key).1 = some "") :
    extract_text_from_file w bucket key =
      ((runTextract w bucket key).1,
       (extract_text_from_docx w bucket key).2 ++ (runTextract w bucket key).2) ∧
    Call.startAnalysis bucket key ∈ (extract_text_from_file w bucket key).2 := by
  have hne : ¬(lowerStr (lastSegment '.' (unquote_plus key)) = "txt" ∨
      lowerStr (lastSegment '.' (unquote_plus key)) = "json" ∨
      lowerStr (lastSegment '.' (unquote_plus key)) = "md") := by
    rcases hext with h | h <;> rw [h] <;> decide
  have hmain : extract_text_from_file w bucket key =
      ((runTextract w bucket key).1,
       (extract_text_from_docx w bucket key).2 ++ (runTextract w bucket key).2) := by
    simp only [extract_text_from_file]
    rw [if_neg hne, if_pos hext]
    rcases hd : extract_text_from_docx w bucket key with ⟨oc, tr⟩
    rw [hd] at hfb
    rcases oc with _ | content
    · rfl
    · rcases hfb with hfb | hfb
      · exact absurd hfb (by simp)
      · have hc : content = "" := by
          simpa using hfb
        subst hc
        simp
  refine ⟨hmain, ?_⟩
  rw [hmain]
  refine List.mem_append.mpr (Or.inr ?_)
  rw [runTextract_trace]
  exact List.mem_singleton.mpr rfl

/-- C5: witness — pandoc exits nonzero, the OCR job fails, and extraction
reports the OCR failure after attempting both strategies in order. -/
theorem C5_witness :
    extract_text_from_file wC5 "docs" "a.docx" =
      ("Error processing document: boom",
       [Call.getObject "docs" "a.docx", Call.runPandoc "docxbytes",
        Call.startAnalysis "docs" "a.docx"]) := by
  exact (C5_docx_fallback wC5 "docs" "a.docx" (Or.inl (by decide))
    (Or.inl (by decide))).1

/-- C6: when the OCR job succeeded with a list of result pages each
carrying a page token except possibly the last, the Textract branch
returns the newline-join of the LINE-block texts of every page, in page
order — all pages, not just the first. -/
theorem C6_pagination_complete (w : World) (bucket key jobId : String)
    (pages : List TextractPage)
    (hstart : w.startAnalysis bucket key = .ok jobId)
    (hjob : w.job jobId = .succeeded pages)
    (htok : ∀ p ∈ pages.dropLast, p.nextToken.isSome) :
    (runTextract w bucket key).1 =
      String.intercalate "\n" ((pages.map fun p => lineTexts p.blocks).flatten) := by
  simp only [runTextract, hstart, hjob]
  rw [gatherBlocks_complete pages htok]

/-- C6: witness — a two-page job yields the concatenation of both pages. -/
theorem C6_witness :
    (runTextract wC6 "docs" "scan.pdf").1 = "first\nsecond" := by
  rw [C6_pagination_complete wC6 "docs" "scan.pdf" "job-6"
    [{ blocks := [{ blockType := "LINE", text := "first" },
                  { blockType := "WORD", text := "skip" }],
       nextToken := some "tok1" },
     { blocks := [{ blockType := "LINE", text := "second" }], nextToken := none }]
    rfl rfl (by decide)]
  decide

/-- C7: the poll loop sleeps a fixed 3 seconds after every non-terminal
poll, terminates exactly at the first index whose reported status is
SUCCEEDED or FAILED — for any fuel beyond that index, so no attempt bound
cuts it off — and when no poll ever reports a terminal status it returns
`none` for every fuel, i.e. the source loop never terminates. -/
theorem C7_poll_loop (statusAt : Nat → String) :
    ((∀ i, ¬(statusAt i = "SUCCEEDED" ∨ statusAt i = "FAILED")) →
      ∀ fuel, pollJob statusAt 0 fuel [] = none) ∧
    (∀ n, (statusAt n = "SUCCEEDED" ∨ statusAt n = "FAILED") →
      (∀ i, i < n → ¬(statusAt i = "SUCCEEDED" ∨ statusAt i = "FAILED")) →
      ∀ fuel, n < fuel →
        pollJob statusAt 0 fuel [] = some (statusAt n, List.replicate n 3)) := by
  constructor
  · intro h fuel
    exact pollJob_never_terminal statusAt h fuel 0 []
  · intro n hterm hmin fuel hfuel
    have h := pollJob_first_terminal statusAt n hterm hmin fuel 0 []
      (Nat.zero_le n) (by omega)
    simpa using h

/-- C7: witness — a job first terminal on the third poll is found there,
after two 3-second sleeps. -/
theorem C7_witness :
    pollJob (fun i => if i = 2 then "SUCCEEDED" else "IN_PROGRESS") 0 5 [] =
      some ("SUCCEEDED", [3, 3]) := by
  exact (C7_poll_loop (fun i => if i = 2 then "SUCCEEDED" else "IN_PROGRESS")).2
    2 (by decide) (by decide) 5 (by omega)

/-- C8: when the best-effort head request fails, `last_modified` falls
back to the assembly-time clock value and the record is still assembled
and committed: the handler returns 200 and the single put's document
carries `last_modified = now`. -/
theorem C8_metadata_failure_tolerated (w : World) (bucket key : String)
    (hhead : w.s3Head bucket key = none)
    (hcontent : (extract_text_from_file w bucket key).1 ≠ "")
    (hindex : w.indexResult key = none) :
    (lambda_handler w [⟨bucket, key⟩]).1 =
      { statusCode := 200, body := "Document processing complete" } ∧
    (lambda_handler w [⟨bucket, key⟩]).2.1 =
      [(key, buildDocument key (extract_text_from_file w bucket key).1 w.now w.now)] ∧
    (buildDocument key (extract_text_from_file w bucket key).1 w.now w.now).last_modified
      = w.now := by
  have hrec : processRecords w [⟨bucket, key⟩] =
      (none,
       [(key, buildDocument key (extract_text_from_file w bucket key).1 w.now w.now)],
       (extract_text_from_file w bucket key).2 ++
         [Call.headObject bucket key,
          Call.indexPut key
            (buildDocument key (extract_text_from_file w bucket key).1 w.now w.now)]) := by
    simp [processRecords, hcontent, hhead, hindex]
  refine ⟨?_, ?_, rfl⟩ <;> simp [lambda_handler, hrec]

/-- C8: witness at a concrete world whose head request fails. -/
theorem C8_witness :
    (lambda_handler wC8 [⟨"docs", "a.txt"⟩]).1 =
      { statusCode := 200, body := "Document processing complete" } ∧
    (lambda_handler wC8 [⟨"docs", "a.txt"⟩]).2.1 =
      [("a.txt", buildDocument "a.txt"
          (extract_text_from_file wC8 "docs" "a.txt").1 wC8.now wC8.now)] ∧
    (buildDocument "a.txt" (extract_text_from_file wC8 "docs" "a.txt").1
        wC8.now wC8.now).last_modified = wC8.now := by
  exact C8_metadata_failure_tolerated wC8 "docs" "a.txt" rfl (by decide) rfl

/-- C9: the generation call is attempted at most 3 times; when every
attempt raises a caught client error, the loop sleeps 2^0 then 2^1 seconds
between the three attempts and returns the fixed error string — a string
result, never a raised error. -/
theorem C9_bounded_retry (w : BedrockWorld) (query : String)
    (docs : List RetrievedDoc) (hdocs : docs ≠ []) :
    invokeCount (generate_response w query docs 3).2 ≤ 3 ∧
    ((∀ p i, ∃ e, w.invoke p i = .error e) →
      generate_response w query docs 3 =
        ("Error generating response from Bedrock.",
         [BedrockCall.invokeModel 0, BedrockCall.sleep 1,
          BedrockCall.invokeModel 1, BedrockCall.sleep 2,
          BedrockCall.invokeModel 2])) := by
  constructor
  · exact generate_response_invokeCount w query docs 3
  · intro hfail
    simp only [generate_response, if_neg hdocs]
    obtain ⟨e0, h0⟩ :=
      hfail ("Context:\n" ++ buildContext docs ++ "\n\nQuery: " ++ query) 0
    obtain ⟨e1, h1⟩ :=
      hfail ("Context:\n" ++ buildContext docs ++ "\n\nQuery: " ++ query) 1
    obtain ⟨e2, h2⟩ :=
      hfail ("Context:\n" ++ buildContext docs ++ "\n\nQuery: " ++ query) 2
    simp [retryLoop, h0, h1, h2]

/-- C9: witness at a Bedrock world whose every invocation fails. -/
theorem C9_witness :
    generate_response wC9 "q" [{ title := some "t", content := some "c" }] 3 =
      ("Error generating response from Bedrock.",
       [BedrockCall.invokeModel 0, BedrockCall.sleep 1,
        BedrockCall.invokeModel 1, BedrockCall.sleep 2,
        BedrockCall.invokeModel 2]) := by
  exact (C9_bounded_retry wC9 "q" [{ title := some "t", content := some "c" }]
    (by decide)).2 (fun p i => ⟨"throttled", rfl⟩)

/-- C10: the decoded key substitutes a space for every '+' in addition to
percent-decoding: on percent-free keys decoding is exactly the
'+'-to-space character map, "%2B" still decodes to a literal '+' while a
raw '+' becomes a space, and the title and file-type of every committed
document are computed from that decoded key while every storage call still
uses the raw key unchanged. -/
theorem C10_plus_decoding (w : World) (bucket key : String) :
    (∀ s : String, '%' ∉ s.data →
        (unquote_plus s).data = s.data.map fun c => if c = '+' then ' ' else c) ∧
    unquote_plus "a%2Bb+c.txt" = "a+b c.txt" ∧
    (∀ p ∈ (lambda_handler w [⟨bucket, key⟩]).2.1,
        p.2.title = lastSegment '/' (unquote_plus key) ∧
        p.2.file_type = lowerStr (lastSegment '.' (unquote_plus key))) ∧
    (∀ c ∈ (lambda_handler w [⟨bucket, key⟩]).2.2,
        storageKeyOf c = none ∨ storageKeyOf c = some key) := by
  refine ⟨?_, by decide, ?_, ?_⟩
  · intro s hs
    have hmapped : '%' ∉ s.data.map fun c => if c = '+' then ' ' else c := by
      intro hm
      rcases List.mem_map.mp hm with ⟨a, ha, hEq⟩
      by_cases hp : a = '+'
      · rw [if_pos hp] at hEq
        exact absurd hEq (by decide)
      · rw [if_neg hp] at hEq
        exact hs (hEq ▸ ha)
    simp only [unquote_plus]
    rw [percentDecode_no_percent _ hmapped]
  · intro p hp
    rw [lambda_handler_puts] at hp
    rcases processRecords_single_puts w bucket key p hp with ⟨h1, h2⟩
    rw [h2]
    exact ⟨rfl, rfl⟩
  · intro c hc
    rw [lambda_handler_calls] at hc
    exact processRecords_single_calls w bucket key c hc

/-- C10: witness at a percent-free key containing '+'. -/
theorem C10_witness :
    (unquote_plus "my+file.txt").data =
      ("my+file.txt".data.map fun c => if c = '+' then ' ' else c) ∧
    unquote_plus "a%2Bb+c.txt" = "a+b c.txt" := by
  have h := C10_plus_decoding wOk "docs" "my+file.txt"
  exact ⟨h.1 "my+file.txt" (by decide), h.2.1⟩

end AISearchBackend
